import Mathlib

/-!
Verification of the taskboard repository's core subsystems against its
specification: the board data model and mutation operations, the
compression/checksum codec with its recovery fallbacks, and the ranked
fuzzy-search engine.

The definitions below are shallow embeddings of the TypeScript sources:
`src/types.ts` (data model), the `useDatabase` hook (board store mutations,
codec), `src/utils/RecoveryManager.ts` (checksum), and
`src/utils/fuzzySearch.ts` (search engine).  JavaScript numbers that are
used as integers are modelled as `Nat`/`Int` with explicit `% 2 ^ 32`
where the code forces 32-bit overflow; JavaScript strings are modelled as
`String`/`List Char`, and UTF-16 code units as `Nat`.  External library
primitives (pako gzip, base64, `JSON.parse`) are modelled at their
documented interface, as noted at each definition.
-/

set_option maxRecDepth 4000

namespace Taskboard

/-! ### Data model, from `src/types.ts` -/

/-- Task priority, from `type Priority`. -/
inductive Priority
  | urgent
  | high
  | medium
  | low
deriving DecidableEq, Repr

/-- Task status, from `type Status`. -/
inductive Status
  | notStarted
  | inProgress
  | paused
  | done
deriving DecidableEq, Repr

/-- The string form of a `Status`, as it appears in the TypeScript union type. -/
def statusStr : Status → String
  | .notStarted => "not-started"
  | .inProgress => "in-progress"
  | .paused => "paused"
  | .done => "done"

/-- The string form of a `Priority`, as it appears in the TypeScript union type. -/
def priorityStr : Priority → String
  | .urgent => "urgent"
  | .high => "high"
  | .medium => "medium"
  | .low => "low"

/-- A note on a task, from `interface SubNote`. -/
structure SubNote where
  id : String
  content : String
  createdAt : Nat
deriving DecidableEq, Repr

/-- A subtask, from `interface Subtask`. -/
structure Subtask where
  id : String
  title : String
  completed : Bool
  createdAt : Nat
deriving DecidableEq, Repr

/-- Attachment kind, from the `type` field of `interface Attachment`. -/
inductive AttachmentType
  | link
  | image
  | file
deriving DecidableEq, Repr

/-- An attachment, from `interface Attachment`. -/
structure Attachment where
  id : String
  type : AttachmentType
  name : String
  url : String
  size : Option Nat
  mimeType : Option String
  createdAt : Nat
deriving DecidableEq, Repr

/-- A tag, from `interface Tag`. -/
structure Tag where
  id : String
  name : String
  color : String
deriving DecidableEq, Repr

/-- A task, from `interface Task`.  `tags` holds tag ids. -/
structure Task where
  id : String
  title : String
  description : Option String
  priority : Priority
  status : Status
  notes : List SubNote
  subtasks : List Subtask
  attachments : List Attachment
  tags : List String
  columnId : String
  order : Int
  createdAt : Nat
  completedAt : Option Nat
deriving DecidableEq, Repr

/-- A column, from `interface Column`. -/
structure Column where
  id : String
  title : String
  order : Int
deriving DecidableEq, Repr

/-- The root board aggregate, from `interface BoardState`. -/
structure BoardState where
  columns : List Column
  tasks : List Task
  tags : List Tag
deriving DecidableEq, Repr

/-- The fixed tag palette `TAG_COLORS` from `src/types.ts`. -/
def TAG_COLORS : List String :=
  ["#ef4444", "#f97316", "#eab308", "#22c55e", "#06b6d4", "#3b82f6",
   "#8b5cf6", "#ec4899", "#64748b", "#78716c"]

/-- The starter tag set `defaultTags` from `useDatabase`. -/
def defaultTags : List Tag :=
  [⟨"tag-1", "Bug", "#ef4444"⟩, ⟨"tag-2", "Feature", "#06b6d4"⟩,
   ⟨"tag-3", "Urgent", "#f97316"⟩, ⟨"tag-4", "Design", "#8b5cf6"⟩]

/-- The built-in default board `defaultState` from `useDatabase`. -/
def defaultState : BoardState :=
  { columns := [⟨"col-1", "To Do", 0⟩, ⟨"col-2", "In Progress", 1⟩, ⟨"col-3", "Done", 2⟩]
    tasks := []
    tags := defaultTags }

/-! ### Decoded (wire-level) board values

A payload decoded from storage was written by an arbitrary earlier schema
revision, so at runtime the fields that `migrateState` repairs may be
absent even though the TypeScript annotations mark them required.  The
`Raw` structures model that runtime value space: each field that
`migrateState` inspects (or that old snapshots may lack) is an `Option`. -/

/-- A task as decoded from a stored snapshot: the fields `migrateState`
defaults (`status`, `subtasks`, `attachments`, `tags`), and `notes`, may be
absent in payloads written by old schema revisions. -/
structure RawTask where
  id : String
  title : String
  description : Option String
  priority : Priority
  status : Option Status
  notes : Option (List SubNote)
  subtasks : Option (List Subtask)
  attachments : Option (List Attachment)
  tags : Option (List String)
  columnId : String
  order : Int
  createdAt : Nat
  completedAt : Option Nat
deriving DecidableEq, Repr

/-- A board as decoded from a stored snapshot; `tags` may be absent. -/
structure RawBoardState where
  columns : List Column
  tasks : List RawTask
  tags : Option (List Tag)
deriving DecidableEq, Repr

/-- The runtime (JSON) image of a well-typed task: every field present. -/
def Task.toRaw (t : Task) : RawTask :=
  { id := t.id, title := t.title, description := t.description
    priority := t.priority, status := some t.status, notes := some t.notes
    subtasks := some t.subtasks, attachments := some t.attachments
    tags := some t.tags, columnId := t.columnId, order := t.order
    createdAt := t.createdAt, completedAt := t.completedAt }

/-- The runtime (JSON) image of a well-typed board: every field present. -/
def BoardState.toRaw (b : BoardState) : RawBoardState :=
  { columns := b.columns, tasks := b.tasks.map Task.toRaw, tags := some b.tags }

/-- `migrateState`'s per-task repair: `status: task.status || 'not-started'`,
`subtasks: task.subtasks || []`, `attachments: task.attachments || []`,
`tags: task.tags || []`.  The truthiness test `x || d` on these fields is
exactly "present or default" (all present values are non-empty strings or
arrays, hence truthy).  `notes` is not repaired by the source. -/
def migrateTask (t : RawTask) : RawTask :=
  { t with status := some (t.status.getD .notStarted)
           subtasks := some (t.subtasks.getD [])
           attachments := some (t.attachments.getD [])
           tags := some (t.tags.getD []) }

/-- `migrateState` from `useDatabase`: repairs every task and defaults the
board-level `tags` (`state.tags || defaultTags`). -/
def migrateState (s : RawBoardState) : RawBoardState :=
  { s with tasks := s.tasks.map migrateTask, tags := some (s.tags.getD defaultTags) }

/-! ### Codec, from `compressState` / `decompressState` in `useDatabase`

The pipeline `btoa(pako.gzip(JSON.stringify(state)))` and its inverse are
built from library primitives external to this repository (pako, the JSON
codec, base64).  They are modelled symbolically at their documented
interface: a stored string is classified by its provenance — the
compressed text encoding of a board, the plain JSON text of a board, or
any other string.  This keeps exactly the facts the decoder dispatches on:
the composite decode succeeds precisely on compressed-form payloads, and
plain `JSON.parse` succeeds precisely on JSON-form payloads (a base64 blob
such as `H4sI...` is not valid JSON, and a JSON object text contains
characters outside the base64 alphabet, so `atob` throws on it). -/

/-- A string payload, classified by provenance: `b64gz b` stands for
`btoa(pako.gzip(JSON.stringify(b)))`, `plainJson b` for
`JSON.stringify(b)`, and `garbage s` for any string that is neither. -/
inductive JSStr
  | b64gz (b : RawBoardState)
  | plainJson (b : RawBoardState)
  | garbage (s : String)
deriving DecidableEq, Repr

/-- A value read back from the `board` object store: either an
already-structured board object (old uncompressed data) or a string. -/
inductive StoredPayload
  | obj (b : RawBoardState)
  | str (s : JSStr)
deriving DecidableEq, Repr

/-- Modelled from the spec: the composite `atob` + `pako.ungzip` +
`TextDecoder` + `JSON.parse` decode attempted first by `decompressState`.
The libraries are external to this repository; the composite succeeds
exactly on payloads produced by the compressed encoding, and throws (here:
`none`) on everything else. -/
def tryB64GzipJson : JSStr → Option RawBoardState
  | .b64gz b => some b
  | _ => none

/-- Modelled from the spec: plain `JSON.parse` on a stored string, the
backward-compatibility fallback of `decompressState`.  Succeeds exactly on
raw JSON board texts. -/
def tryPlainJson : JSStr → Option RawBoardState
  | .plainJson b => some b
  | _ => none

/-- `compressState` from `useDatabase`: `btoa(pako.gzip(JSON.stringify(state)))`.
The `catch` fallback to uncompressed JSON is unreachable in the model
because the modelled compressor is total, as `pako.gzip` is on strings. -/
def compressState (b : BoardState) : JSStr :=
  .b64gz b.toRaw

/-- `decompressState` from `useDatabase`.  An already-structured object is
returned as-is; a string is decoded as base64 + gzip + JSON, then on
failure as plain JSON, and on failure of both the default board is
returned.  Total: every failure is caught inside the function. -/
def decompressState : StoredPayload → RawBoardState
  | .obj b => b
  | .str s =>
    match tryB64GzipJson s with
    | some b => b
    | none =>
      match tryPlainJson s with
      | some b => b
      | none => defaultState.toRaw

/-! ### Claim C1: codec round-trip -/

theorem migrateTask_toRaw (t : Task) : migrateTask t.toRaw = t.toRaw := rfl

theorem migrateState_toRaw (b : BoardState) : migrateState b.toRaw = b.toRaw := by
  unfold migrateState BoardState.toRaw
  simp [List.map_map, Function.comp_def, migrateTask_toRaw]

/-- Claim C1: for every board value `b`, deserializing the serialized form,
`decompressState (compressState b)`, yields a board equal (as a runtime
value) to `migrateState` applied to `b`. -/
theorem claim1_codec_roundtrip (b : BoardState) :
    decompressState (.str (compressState b)) = migrateState b.toRaw := by
  rw [migrateState_toRaw]
  rfl

/-! ### Claim C6: decoder totality and fallback order -/

/-- Claim C6: `decompressState` is total (it is a Lean function into
`RawBoardState`, so it returns on every input payload), and it dispatches
in fallback order: a structured object is returned as-is; for a string the
base64+gzip+JSON decode is used when it succeeds; otherwise plain JSON
parsing is used when it succeeds; and when both fail the default board is
returned. -/
theorem claim6_decoder_fallback :
    (∀ b : RawBoardState, decompressState (.obj b) = b) ∧
    (∀ (s : JSStr) (b : RawBoardState),
      tryB64GzipJson s = some b → decompressState (.str s) = b) ∧
    (∀ (s : JSStr) (b : RawBoardState),
      tryB64GzipJson s = none → tryPlainJson s = some b →
        decompressState (.str s) = b) ∧
    (∀ s : JSStr,
      tryB64GzipJson s = none → tryPlainJson s = none →
        decompressState (.str s) = defaultState.toRaw) := by
  refine ⟨fun _ => rfl, fun s b h => ?_, fun s b h1 h2 => ?_, fun s h1 h2 => ?_⟩
  · simp [decompressState, h]
  · simp [decompressState, h1, h2]
  · simp [decompressState, h1, h2]

/-- A sample decoded board used to instantiate the C6 fallback cases. -/
def sampleRawBoard : RawBoardState :=
  { columns := [⟨"col-1", "To Do", 0⟩], tasks := [], tags := none }

/-- Witness for C6: the fallback cases evaluated at concrete payloads. -/
theorem claim6_decoder_fallback_witness :
    decompressState (.str (.b64gz sampleRawBoard)) = sampleRawBoard ∧
    decompressState (.str (.plainJson sampleRawBoard)) = sampleRawBoard ∧
    decompressState (.str (.garbage "corrupted!")) = defaultState.toRaw :=
  ⟨claim6_decoder_fallback.2.1 _ sampleRawBoard rfl,
   claim6_decoder_fallback.2.2.1 _ sampleRawBoard rfl rfl,
   claim6_decoder_fallback.2.2.2 _ rfl rfl⟩

/-! ### Checksum, from `generateHash` / `verifyHash` in `RecoveryManager.ts`

`generateHash` iterates `hash = ((hash << 5) - hash) + char` over the
UTF-16 code units of its argument, with `hash = hash & hash` coercing the
accumulator to a signed 32-bit integer after every step; it returns
`Math.abs(hash).toString(16)`.  On the unsigned representative modulo
`2 ^ 32` each step is exactly `hash := (31 * hash + char) % 2 ^ 32`, and
`Math.abs` of the signed value is `abs32` below.  Strings are modelled as
lists of UTF-16 code units (`List Nat`, each unit `< 65536`). -/

/-- Hexadecimal digits of `Number.prototype.toString(16)` (lowercase). -/
def hexDigitChar : Nat → Char
  | 0 => '0' | 1 => '1' | 2 => '2' | 3 => '3' | 4 => '4'
  | 5 => '5' | 6 => '6' | 7 => '7' | 8 => '8' | 9 => '9'
  | 10 => 'a' | 11 => 'b' | 12 => 'c' | 13 => 'd' | 14 => 'e'
  | 15 => 'f' | _ => '?'

/-- Little-endian base-`base` digits of `n`.  The `fuel` argument bounds
the recursion depth; any `fuel > n` is sufficient since `n / base < n` for
`n ≥ base ≥ 2`, so the fuel-exhausted branch is unreachable in use. -/
def toDigitsRev (base : Nat) : Nat → Nat → List Nat
  | 0, n => [n % base]
  | fuel + 1, n => if n < base then [n] else n % base :: toDigitsRev base fuel (n / base)

/-- Big-endian base-`base` digit list of `n`, as printed by JavaScript's
`Number.prototype.toString(base)` for a nonnegative integer. -/
def natToBase (base n : Nat) : List Nat :=
  (toDigitsRev base (n + 1) n).reverse

/-- Reads back a big-endian digit list; left inverse of `natToBase`. -/
def fromBase (base : Nat) (ds : List Nat) : Nat :=
  ds.foldl (fun a d => base * a + d) 0

theorem fromBase_append_single (base : Nat) (l : List Nat) (d : Nat) :
    fromBase base (l ++ [d]) = base * fromBase base l + d := by
  simp [fromBase, List.foldl_append]

theorem fromBase_natToBase_aux (base : Nat) (hb : 2 ≤ base) :
    ∀ fuel n, n < fuel → fromBase base (toDigitsRev base fuel n).reverse = n := by
  intro fuel
  induction fuel with
  | zero => omega
  | succ fuel ih =>
    intro n hn
    by_cases h : n < base
    · simp [toDigitsRev, h, fromBase]
    · have hdiv : n / base < n := Nat.div_lt_self (by omega) hb
      have : fromBase base (toDigitsRev base fuel (n / base)).reverse = n / base :=
        ih (n / base) (by omega)
      simp only [toDigitsRev, if_neg h, List.reverse_cons]
      rw [fromBase_append_single, this, Nat.div_add_mod]

theorem natToBase_injective (base : Nat) (hb : 2 ≤ base) {m n : Nat}
    (h : natToBase base m = natToBase base n) : m = n := by
  have hm := fromBase_natToBase_aux base hb (m + 1) m (by omega)
  have hn := fromBase_natToBase_aux base hb (n + 1) n (by omega)
  rw [← hm, ← hn]
  unfold natToBase at h
  rw [h]

theorem toDigitsRev_lt (base : Nat) (hb : 2 ≤ base) :
    ∀ fuel n, ∀ d ∈ toDigitsRev base fuel n, d < base := by
  intro fuel
  induction fuel with
  | zero =>
    intro n d hd
    simp [toDigitsRev] at hd
    subst hd
    exact Nat.mod_lt _ (by omega)
  | succ fuel ih =>
    intro n d hd
    by_cases h : n < base
    · simp [toDigitsRev, h] at hd
      omega
    · simp only [toDigitsRev, if_neg h, List.mem_cons] at hd
      rcases hd with hd | hd
      · subst hd
        exact Nat.mod_lt _ (by omega)
      · exact ih _ _ hd

theorem hexDigitChar_inj : ∀ a < 16, ∀ b < 16,
    hexDigitChar a = hexDigitChar b → a = b := by decide

theorem map_hexDigitChar_inj : ∀ {l₁ l₂ : List Nat},
    (∀ d ∈ l₁, d < 16) → (∀ d ∈ l₂, d < 16) →
    l₁.map hexDigitChar = l₂.map hexDigitChar → l₁ = l₂ := by
  intro l₁
  induction l₁ with
  | nil =>
    intro l₂ _ _ h
    cases l₂ with
    | nil => rfl
    | cons b t => simp at h
  | cons a t ih =>
    intro l₂ h₁ h₂ h
    cases l₂ with
    | nil => simp at h
    | cons b t₂ =>
      simp only [List.map_cons, List.cons.injEq] at h
      have ha : a = b :=
        hexDigitChar_inj a (h₁ a (by simp)) b (h₂ b (by simp)) h.1
      have ht : t = t₂ :=
        ih (fun d hd => h₁ d (by simp [hd])) (fun d hd => h₂ d (by simp [hd])) h.2
      rw [ha, ht]

/-- `toString(16)` of a nonnegative integer, as a character list. -/
def natToHex (n : Nat) : List Char :=
  (natToBase 16 n).map hexDigitChar

theorem natToHex_injective {m n : Nat} (h : natToHex m = natToHex n) : m = n := by
  refine natToBase_injective 16 (by omega) ?_
  exact map_hexDigitChar_inj
    (fun d hd => toDigitsRev_lt 16 (by omega) _ _ d (List.mem_reverse.mp hd))
    (fun d hd => toDigitsRev_lt 16 (by omega) _ _ d (List.mem_reverse.mp hd)) h

/-- One step of `generateHash`'s loop on the unsigned 32-bit representative. -/
def hashStep (h c : Nat) : Nat :=
  (31 * h + c) % 2 ^ 32

/-- The signed 32-bit accumulator of `generateHash`'s loop, represented as
its unsigned residue modulo `2 ^ 32`, over a list of UTF-16 code units. -/
def h32 (data : List Nat) : Nat :=
  data.foldl hashStep 0

/-- `Math.abs` of the signed 32-bit value whose unsigned residue is `u`. -/
def abs32 (u : Nat) : Nat :=
  if u < 2 ^ 31 then u else 2 ^ 32 - u

/-- `generateHash` from `RecoveryManager.ts`: `Math.abs(hash).toString(16)`
of the iterated 32-bit hash. -/
def generateHash (data : List Nat) : String :=
  String.mk (natToHex (abs32 (h32 data)))

/-- `verifyHash` from `RecoveryManager.ts`: `generateHash(data) === hash`. -/
def verifyHash (data : List Nat) (hash : String) : Bool :=
  generateHash data == hash

theorem foldl_hashStep_lt (data : List Nat) :
    ∀ init, init < 2 ^ 32 → data.foldl hashStep init < 2 ^ 32 := by
  induction data with
  | nil => intro init h; simpa using h
  | cons c t ih =>
    intro init _
    exact ih (hashStep init c) (Nat.mod_lt _ (by norm_num))

theorem h32_lt (data : List Nat) : h32 data < 2 ^ 32 :=
  foldl_hashStep_lt data 0 (by norm_num)

theorem hashStep_ne_right {h c c' : Nat} (hne : c ≠ c')
    (hc : c < 2 ^ 32) (hc' : c' < 2 ^ 32) :
    hashStep h c ≠ hashStep h c' := by
  unfold hashStep
  intro heq
  have hmod : (31 * h + c) ≡ (31 * h + c') [MOD 2 ^ 32] := heq
  have hcc : c % 2 ^ 32 = c' % 2 ^ 32 := Nat.ModEq.add_left_cancel' (31 * h) hmod
  rw [Nat.mod_eq_of_lt hc, Nat.mod_eq_of_lt hc'] at hcc
  exact hne hcc

theorem hashStep_ne_left {h h' c : Nat} (hh : h < 2 ^ 32) (hh' : h' < 2 ^ 32)
    (hne : h ≠ h') : hashStep h c ≠ hashStep h' c := by
  unfold hashStep
  intro heq
  have hmod : (31 * h + c) ≡ (31 * h' + c) [MOD 2 ^ 32] := heq
  have h31 : (31 : Nat) * h ≡ 31 * h' [MOD 2 ^ 32] :=
    Nat.ModEq.add_right_cancel' c hmod
  have hcop : Nat.gcd (2 ^ 32) 31 = 1 := by decide
  have := Nat.ModEq.cancel_left_of_coprime hcop h31
  exact hne (by
    have h1 : h % 2 ^ 32 = h' % 2 ^ 32 := this
    rwa [Nat.mod_eq_of_lt hh, Nat.mod_eq_of_lt hh'] at h1)

theorem foldl_hashStep_ne (s : List Nat) :
    ∀ h h', h < 2 ^ 32 → h' < 2 ^ 32 → h ≠ h' →
      s.foldl hashStep h ≠ s.foldl hashStep h' := by
  induction s with
  | nil => intro h h' _ _ hne; simpa using hne
  | cons c t ih =>
    intro h h' hh hh' hne
    exact ih (hashStep h c) (hashStep h' c)
      (Nat.mod_lt _ (by norm_num)) (Nat.mod_lt _ (by norm_num))
      (hashStep_ne_left hh hh' hne)

/-- Claim C2 (amended): a change at a single character position always
changes the signed 32-bit hash itself, and `verifyHash(data', hash)` is
false whenever it also changes the absolute value of the signed hash.
(The stored checksum is `Math.abs(hash).toString(16)`, so the two code
units flipping the sign of the hash while preserving its magnitude defeat
verification — see the counterexample.) -/
theorem claim2_checksum_flip (p s : List Nat) (c c' : Nat)
    (hne : c ≠ c') (hc : c < 65536) (hc' : c' < 65536) :
    h32 (p ++ c :: s) ≠ h32 (p ++ c' :: s) ∧
    (abs32 (h32 (p ++ c :: s)) ≠ abs32 (h32 (p ++ c' :: s)) →
      verifyHash (p ++ c' :: s) (generateHash (p ++ c :: s)) = false) := by
  have hH : p.foldl hashStep 0 < 2 ^ 32 := foldl_hashStep_lt p 0 (by norm_num)
  have hmain : h32 (p ++ c :: s) ≠ h32 (p ++ c' :: s) := by
    unfold h32
    rw [List.foldl_append, List.foldl_append]
    simp only [List.foldl_cons]
    exact foldl_hashStep_ne s _ _
      (Nat.mod_lt _ (by norm_num)) (Nat.mod_lt _ (by norm_num))
      (hashStep_ne_right hne (by omega) (by omega))
  refine ⟨hmain, fun habs => ?_⟩
  unfold verifyHash
  rw [beq_eq_false_iff_ne]
  intro hgen
  unfold generateHash at hgen
  have hlist : natToHex (abs32 (h32 (p ++ c' :: s))) =
      natToHex (abs32 (h32 (p ++ c :: s))) := by
    injection hgen
  exact habs (natToHex_injective hlist).symm

/-- Witness for the amended C2: a flip of the final code unit of `"a"`
from `0` to `1` changes the hash and is rejected by `verifyHash`. -/
theorem claim2_checksum_flip_witness :
    (0 : Nat) ≠ 1 ∧
    verifyHash [97, 1] (generateHash [97, 0]) = false :=
  ⟨by decide,
   (claim2_checksum_flip [97] [] 0 1 (by decide) (by decide) (by decide)).2 (by decide)⟩

/-- A backup payload over the base64 alphabet: the code units of the
string `4Dj7ZPon+`. -/
def collisionPayload : List Nat := [52, 68, 106, 55, 90, 80, 111, 110, 43]

/-- The same string with only its final character changed (to the code
unit `19641`).  Its signed 32-bit hash is the negation of the original's
(`-9799` versus `9799`), so both hash to the string `"2647"`. -/
def collisionFlipped : List Nat := [52, 68, 106, 55, 90, 80, 111, 110, 19641]

/-- Claim C2 counterexample: a stored payload and a string differing from
it in exactly one character position (the ninth) that `verifyHash`
nevertheless accepts against the payload's stored hash, so the corruption
is not detected and the tier is not skipped. -/
theorem claim2_checksum_flip_counterexample :
    collisionPayload.length = collisionFlipped.length ∧
    (collisionPayload.zip collisionFlipped).countP (fun q => q.1 != q.2) = 1 ∧
    (∀ u ∈ collisionFlipped, u < 65536) ∧
    verifyHash collisionFlipped (generateHash collisionPayload) = true := by decide

/-! ### Board store mutations, from the `useDatabase` hook

Each mutation is a pure transform of the current board; the source's
`Date.now()` calls are passed in as the `now` argument (epoch
milliseconds).  Entity ids are the template strings `` `col-${Date.now()}` ``
etc.; JavaScript renders the integer in decimal. -/

/-- Decimal digits of JavaScript number-to-string conversion. -/
def decDigitChar : Nat → Char
  | 0 => '0' | 1 => '1' | 2 => '2' | 3 => '3' | 4 => '4'
  | 5 => '5' | 6 => '6' | 7 => '7' | 8 => '8' | 9 => '9' | _ => '?'

/-- `${n}` for a nonnegative integer `n`, as a character list. -/
def natToDec (n : Nat) : List Char :=
  (natToBase 10 n).map decDigitChar

/-- An entity id template such as `` `task-${Date.now()}` ``. -/
def genId (pre : String) (now : Nat) : String :=
  pre ++ String.mk (natToDec now)

/-- `addColumn` from `useDatabase`: appends a column with a fresh id and
`order = state.columns.length`. -/
def addColumn (state : BoardState) (title : String) (now : Nat) : BoardState :=
  { state with columns := state.columns ++
      [{ id := genId "col-" now, title := title, order := (state.columns.length : Int) }] }

/-- `addTask` from `useDatabase`: appends a task with a fresh id, default
priority/status, empty collections, and `order` = count of tasks already
in the column. -/
def addTask (state : BoardState) (columnId title : String) (now : Nat) : BoardState :=
  let columnTasks := state.tasks.filter (fun t => t.columnId == columnId)
  let newTask : Task :=
    { id := genId "task-" now, title := title, description := none
      priority := .medium, status := .notStarted, notes := [], subtasks := []
      attachments := [], tags := [], columnId := columnId
      order := (columnTasks.length : Int), createdAt := now, completedAt := none }
  { state with tasks := state.tasks ++ [newTask] }

/-- `addTag` from `useDatabase`: appends a tag with a fresh id. -/
def addTag (state : BoardState) (name color : String) (now : Nat) : BoardState :=
  { state with tags := state.tags ++ [{ id := genId "tag-" now, name := name, color := color }] }

/-- `Partial<Task>` as passed to `updateTask`: every field independently
present or absent; for the optional fields `description` and `completedAt`
a present field may itself carry `undefined` (inner `none`), which the
object spread copies over the existing value. -/
structure PartialTask where
  id : Option String := none
  title : Option String := none
  description : Option (Option String) := none
  priority : Option Priority := none
  status : Option Status := none
  notes : Option (List SubNote) := none
  subtasks : Option (List Subtask) := none
  attachments : Option (List Attachment) := none
  tags : Option (List String) := none
  columnId : Option String := none
  order : Option Int := none
  createdAt : Option Nat := none
  completedAt : Option (Option Nat) := none
deriving DecidableEq, Repr

/-- The object spread `{ ...task, ...updates }`. -/
def mergeTask (t : Task) (u : PartialTask) : Task :=
  { id := u.id.getD t.id, title := u.title.getD t.title
    description := u.description.getD t.description
    priority := u.priority.getD t.priority, status := u.status.getD t.status
    notes := u.notes.getD t.notes, subtasks := u.subtasks.getD t.subtasks
    attachments := u.attachments.getD t.attachments, tags := u.tags.getD t.tags
    columnId := u.columnId.getD t.columnId, order := u.order.getD t.order
    createdAt := u.createdAt.getD t.createdAt
    completedAt := u.completedAt.getD t.completedAt }

/-- The per-task body of `updateTask`'s `map`: merge the updates, then set
`completedAt = now` when the merge moves status into `"done"`, and clear
it when the merge sets a non-`"done"` status. -/
def updateTaskF (taskId : String) (u : PartialTask) (now : Nat) (task : Task) : Task :=
  if task.id = taskId then
    let updated := mergeTask task u
    if u.status = some .done ∧ task.status ≠ .done then
      { updated with completedAt := some now }
    else if u.status.isSome ∧ u.status ≠ some .done then
      { updated with completedAt := none }
    else updated
  else task

/-- `updateTask` from `useDatabase`. -/
def updateTask (state : BoardState) (taskId : String) (u : PartialTask) (now : Nat) :
    BoardState :=
  { state with tasks := state.tasks.map (updateTaskF taskId u now) }

/-- `deleteTask` from `useDatabase`. -/
def deleteTask (state : BoardState) (taskId : String) : BoardState :=
  { state with tasks := state.tasks.filter (fun t => t.id != taskId) }

/-- Ascending comparison `(a, b) => a.order - b.order` used by `moveTask`. -/
def taskOrderLe (a b : Task) : Prop := a.order ≤ b.order

instance : DecidableRel taskOrderLe := fun a b =>
  inferInstanceAs (Decidable (a.order ≤ b.order))

/-- `Array.prototype.splice(idx, 0, x)`: insert at `idx`, with JavaScript's
index normalization (negative indices count from the end and clamp at 0;
indices past the end append). -/
def spliceInsert (l : List Task) (idx : Int) (x : Task) : List Task :=
  let i : Nat := if idx < 0 then ((l.length : Int) + idx).toNat else idx.toNat
  l.take i ++ x :: l.drop i

/-- The `forEach((t, index) => t.order = index)` renumbering of `moveTask`,
starting at `i`. -/
def renumber (i : Nat) : List Task → List Task
  | [] => []
  | t :: ts => { t with order := (i : Int) } :: renumber (i + 1) ts

/-- `moveTask` from `useDatabase`: no-op when the task id is absent;
otherwise remove the task, insert it into the destination column's
order-sorted task list at `newOrder`, renumber that column 0..n-1, and
rebuild the task list.  `Array.prototype.sort` is a stable comparison
sort (modelled as insertion sort). -/
def moveTask (state : BoardState) (taskId newColumnId : String) (newOrder : Int) :
    BoardState :=
  match state.tasks.find? (fun t => t.id == taskId) with
  | none => state
  | some task =>
    let updatedTasks := state.tasks.filter (fun t => t.id != taskId)
    let targetColumnTasks :=
      List.insertionSort taskOrderLe (updatedTasks.filter (fun t => t.columnId == newColumnId))
    let inserted := spliceInsert targetColumnTasks newOrder { task with columnId := newColumnId }
    let renumbered := renumber 0 inserted
    { state with tasks := updatedTasks.filter (fun t => t.columnId != newColumnId) ++ renumbered }

/-- The per-task body of `setColumnTasksStatus`'s `map`: same
status-transition rule as `updateTask`. -/
def setStatusF (columnId : String) (status : Status) (now : Nat) (task : Task) : Task :=
  if task.columnId = columnId then
    let updated := { task with status := status }
    if status = .done ∧ task.status ≠ .done then
      { updated with completedAt := some now }
    else if status ≠ .done then
      { updated with completedAt := none }
    else updated
  else task

/-- `setColumnTasksStatus` from `useDatabase`. -/
def setColumnTasksStatus (state : BoardState) (columnId : String) (status : Status)
    (now : Nat) : BoardState :=
  { state with tasks := state.tasks.map (setStatusF columnId status now) }

/-- `setColumnTasksPriority` from `useDatabase`. -/
def setColumnTasksPriority (state : BoardState) (columnId : String) (priority : Priority) :
    BoardState :=
  { state with tasks := state.tasks.map (fun task =>
      if task.columnId = columnId then { task with priority := priority } else task) }

/-- `deleteTag` from `useDatabase`: removes the tag and scrubs its id from
every task's tag set. -/
def deleteTag (state : BoardState) (tagId : String) : BoardState :=
  { state with tags := state.tags.filter (fun tag => tag.id != tagId)
               tasks := state.tasks.map (fun task =>
                 { task with tags := task.tags.filter (fun id => id != tagId) }) }

/-! ### Claim C3: the `completedAt`/status invariant -/

/-- Every task has `completedAt` set exactly when its status is `"done"`. -/
def InvCompleted (b : BoardState) : Prop :=
  ∀ t ∈ b.tasks, (t.completedAt ≠ none ↔ t.status = Status.done)

instance : DecidablePred InvCompleted := fun b =>
  inferInstanceAs (Decidable (∀ t ∈ b.tasks, (t.completedAt ≠ none ↔ t.status = Status.done)))

/-- A step of the sequences quantified over by the claim. -/
inductive MutOp
  | update (taskId : String) (u : PartialTask) (now : Nat)
  | setStatus (columnId : String) (status : Status) (now : Nat)
deriving DecidableEq, Repr

def MutOp.now : MutOp → Nat
  | .update _ _ n => n
  | .setStatus _ _ n => n

/-- An `updateTask` call whose `partialFields` does not contain the
`completedAt` key (`setColumnTasksStatus` calls never touch it directly). -/
def MutOp.benign : MutOp → Prop
  | .update _ u _ => u.completedAt = none
  | .setStatus _ _ _ => True

instance : DecidablePred MutOp.benign := fun op => by
  cases op with
  | update _ u _ => exact inferInstanceAs (Decidable (u.completedAt = none))
  | setStatus _ _ _ => exact inferInstanceAs (Decidable True)

def applyMut (b : BoardState) : MutOp → BoardState
  | .update taskId u now => updateTask b taskId u now
  | .setStatus columnId st now => setColumnTasksStatus b columnId st now

/-- Relation between a task before and after one mutation step at time
`now`: a task that transitions into `"done"` gets `completedAt = now`, a
task that stays `"done"` keeps its `completedAt`, and a task that is not
`"done"` afterwards has no `completedAt`. -/
def TaskStep (now : Nat) (t t' : Task) : Prop :=
  ((t.status ≠ Status.done ∧ t'.status = Status.done) → t'.completedAt = some now) ∧
  ((t.status = Status.done ∧ t'.status = Status.done) → t'.completedAt = t.completedAt) ∧
  (t'.status ≠ Status.done → t'.completedAt = none)

/-- Positional relation between a board and its successor under one
mutation: every task is related to its successor by `TaskStep` at the
step's `Date.now()` time. -/
def StepSpec (b : BoardState) (op : MutOp) : Prop :=
  List.Forall₂ (TaskStep op.now) b.tasks (applyMut b op).tasks

theorem updateTaskF_spec (taskId : String) (u : PartialTask) (now : Nat) (t : Task)
    (ht : t.completedAt ≠ none ↔ t.status = Status.done) (hb : u.completedAt = none) :
    TaskStep now t (updateTaskF taskId u now t) := by
  unfold TaskStep updateTaskF
  by_cases hid : t.id = taskId
  · simp only [if_pos hid]
    split_ifs with h1 h2
    · refine ⟨fun _ => rfl, fun hc => absurd h1.2 (fun hx => hx hc.1), fun hnd => ?_⟩
      exact absurd (by simp [mergeTask, h1.1]) hnd
    · obtain ⟨hsome, hne⟩ := h2
      obtain ⟨s, hs⟩ := Option.isSome_iff_exists.mp hsome
      have hsd : s ≠ Status.done := by
        intro h
        exact hne (by rw [hs, h])
      refine ⟨fun hc => ?_, fun hc => ?_, fun _ => rfl⟩
      · exact absurd (by simpa [mergeTask, hs] using hc.2) hsd
      · exact absurd (by simpa [mergeTask, hs] using hc.2) hsd
    · rcases hu : u.status with _ | s
      · simp only [mergeTask, hu, hb, Option.getD_none]
        refine ⟨fun hc => absurd hc.2 hc.1, fun _ => trivial, fun hnd => ?_⟩
        by_contra hne
        exact hnd (ht.mp hne)
      · have hsd : s = Status.done := by
          by_contra hx
          exact h2 ⟨by simp [hu], by simp [hu, hx]⟩
        have htd : t.status = Status.done := by
          by_contra hx
          exact h1 ⟨by simp [hu, hsd], hx⟩
        simp only [mergeTask, hu, hb, hsd, Option.getD_none, Option.getD_some]
        refine ⟨fun hc => absurd htd hc.1, fun _ => trivial, fun hnd => absurd rfl hnd⟩
  · simp only [if_neg hid]
    refine ⟨fun h => absurd h.2 h.1, fun _ => trivial, fun hnd => ?_⟩
    by_contra hne
    exact hnd (ht.mp hne)

theorem setStatusF_spec (columnId : String) (st : Status) (now : Nat) (t : Task)
    (ht : t.completedAt ≠ none ↔ t.status = Status.done) :
    TaskStep now t (setStatusF columnId st now t) := by
  unfold TaskStep setStatusF
  by_cases hcol : t.columnId = columnId
  · simp only [if_pos hcol]
    split_ifs with h1 h2
    · exact ⟨fun _ => rfl, fun hc => absurd h1.2 (fun hx => hx hc.1), fun hnd => absurd h1.1 hnd⟩
    · refine ⟨fun hc => absurd hc.2 h2, fun hc => absurd hc.2 h2, fun _ => rfl⟩
    · have hsd : st = Status.done := not_not.mp h2
      have htd : t.status = Status.done := by
        by_contra hx
        exact h1 ⟨hsd, hx⟩
      exact ⟨fun hc => absurd htd hc.1, fun _ => rfl, fun hnd => absurd hsd hnd⟩
  · simp only [if_neg hcol]
    refine ⟨fun h => absurd h.2 h.1, fun _ => trivial, fun hnd => ?_⟩
    by_contra hne
    exact hnd (ht.mp hne)

theorem TaskStep.preserves_inv {now : Nat} {t t' : Task}
    (hi : t.completedAt ≠ none ↔ t.status = Status.done) (h : TaskStep now t t') :
    (t'.completedAt ≠ none ↔ t'.status = Status.done) := by
  obtain ⟨h1, h2, h3⟩ := h
  constructor
  · intro hne
    by_contra hnd
    exact hne (h3 hnd)
  · intro hd
    by_cases htd : t.status = Status.done
    · rw [h2 ⟨htd, hd⟩]
      exact hi.mpr htd
    · rw [h1 ⟨htd, hd⟩]
      simp

theorem forall₂_mem_right {α β : Type} {R : α → β → Prop} :
    ∀ {l : List α} {l' : List β}, List.Forall₂ R l l' → ∀ b ∈ l', ∃ a ∈ l, R a b := by
  intro l l' h
  induction h with
  | nil => intro b hb; cases hb
  | cons hR _ ih =>
    intro b hb
    rcases List.mem_cons.mp hb with rfl | hb
    · exact ⟨_, by simp, hR⟩
    · obtain ⟨a, ha, hab⟩ := ih b hb
      exact ⟨a, by simp [ha], hab⟩

theorem applyMut_stepSpec (b : BoardState) (op : MutOp)
    (hInv : InvCompleted b) (hb : op.benign) : StepSpec b op := by
  cases op with
  | update taskId u now =>
    unfold StepSpec applyMut updateTask
    rw [List.forall₂_map_right_iff, List.forall₂_same]
    intro t htmem
    exact updateTaskF_spec taskId u now t (hInv t htmem) hb
  | setStatus columnId st now =>
    unfold StepSpec applyMut setColumnTasksStatus
    rw [List.forall₂_map_right_iff, List.forall₂_same]
    intro t htmem
    exact setStatusF_spec columnId st now t (hInv t htmem)

theorem applyMut_inv (b : BoardState) (op : MutOp)
    (hInv : InvCompleted b) (hb : op.benign) : InvCompleted (applyMut b op) := by
  intro t' ht'
  obtain ⟨t, ht, hstep⟩ := forall₂_mem_right (applyMut_stepSpec b op hInv hb) t' ht'
  exact hstep.preserves_inv (hInv t ht)

/-- Claim C3 (amended): starting from any board in which every task has
`completedAt` set exactly when its status is `"done"`, every sequence of
`updateTask` calls whose partial update does not itself contain the
`completedAt` field, and `setColumnTasksStatus` calls, preserves that
invariant; moreover each single step relates every task to its successor
by `TaskStep`: a transition into `"done"` stamps `completedAt` with the
step's time, staying `"done"` keeps the previous stamp, and a task not
`"done"` afterwards has no stamp — so `completedAt` is the time of the
most recent transition into `"done"`. -/
theorem claim3_status_completedAt :
    (∀ (b : BoardState) (ops : List MutOp),
      InvCompleted b → (∀ op ∈ ops, op.benign) →
      InvCompleted (ops.foldl applyMut b)) ∧
    (∀ (b : BoardState) (op : MutOp),
      InvCompleted b → op.benign → StepSpec b op) := by
  refine ⟨?_, applyMut_stepSpec⟩
  intro b ops
  induction ops generalizing b with
  | nil => intro h _; simpa using h
  | cons op rest ih =>
    intro hInv hben
    simp only [List.foldl_cons]
    exact ih _ (applyMut_inv b op hInv (hben op (by simp)))
      (fun o ho => hben o (by simp [ho]))

/-- A minimal invariant-satisfying board used for the C3 inputs. -/
def sampleTask : Task :=
  { id := "t1", title := "x", description := none, priority := .medium
    status := .notStarted, notes := [], subtasks := [], attachments := []
    tags := [], columnId := "col-1", order := 0, createdAt := 0, completedAt := none }

def sampleBoard : BoardState :=
  { columns := [⟨"col-1", "To Do", 0⟩], tasks := [sampleTask], tags := [] }

/-- A `Partial<Task>` that carries the `completedAt` key itself. -/
def completedAtUpdate : PartialTask := { completedAt := some (some 5) }

/-- A benign `Partial<Task>` setting only the status. -/
def doneUpdate : PartialTask := { status := some .done }

/-- Claim C3 counterexample: `updateTask` accepts any `Partial<Task>`, and
a partial update containing the `completedAt` field itself (here
`{ completedAt: 5 }` on a not-started task) is merged verbatim, leaving a
task with `completedAt` set while its status is not `"done"`. -/
theorem claim3_status_completedAt_counterexample :
    InvCompleted sampleBoard ∧
    ¬ InvCompleted (updateTask sampleBoard "t1" completedAtUpdate 9) := by decide

/-- Witness for the amended C3 at a concrete board and operation list. -/
theorem claim3_status_completedAt_witness :
    InvCompleted sampleBoard ∧
    InvCompleted ([MutOp.update "t1" doneUpdate 7,
                   MutOp.setStatus "col-1" .paused 9].foldl applyMut sampleBoard) ∧
    StepSpec sampleBoard (MutOp.update "t1" doneUpdate 7) :=
  ⟨by decide,
   claim3_status_completedAt.1 sampleBoard _ (by decide) (by decide),
   claim3_status_completedAt.2 sampleBoard _ (by decide) (by decide)⟩

/-! ### Claim C9: keyed mutations touch only their target -/

/-- Claim C9: `updateTask` leaves the columns and tags lists unchanged and
every task whose id differs from the target unchanged (positionally);
`setColumnTasksPriority` leaves every task outside the target column
unchanged; `deleteTag` keeps exactly the other tags and changes no task
field other than its `tags` set. -/
theorem claim9_frame_properties :
    (∀ (b : BoardState) (taskId : String) (u : PartialTask) (now : Nat),
      (updateTask b taskId u now).columns = b.columns ∧
      (updateTask b taskId u now).tags = b.tags ∧
      List.Forall₂ (fun t t' => t.id ≠ taskId → t' = t)
        b.tasks (updateTask b taskId u now).tasks) ∧
    (∀ (b : BoardState) (columnId : String) (p : Priority),
      List.Forall₂ (fun t t' => t.columnId ≠ columnId → t' = t)
        b.tasks (setColumnTasksPriority b columnId p).tasks) ∧
    (∀ (b : BoardState) (tagId : String),
      (∀ tg, tg ∈ (deleteTag b tagId).tags ↔ (tg ∈ b.tags ∧ tg.id ≠ tagId)) ∧
      List.Forall₂ (fun t t' =>
          t'.id = t.id ∧ t'.title = t.title ∧ t'.description = t.description ∧
          t'.priority = t.priority ∧ t'.status = t.status ∧ t'.notes = t.notes ∧
          t'.subtasks = t.subtasks ∧ t'.attachments = t.attachments ∧
          t'.columnId = t.columnId ∧ t'.order = t.order ∧
          t'.createdAt = t.createdAt ∧ t'.completedAt = t.completedAt)
        b.tasks (deleteTag b tagId).tasks) := by
  refine ⟨fun b taskId u now => ⟨rfl, rfl, ?_⟩, fun b columnId p => ?_, fun b tagId => ⟨?_, ?_⟩⟩
  · show List.Forall₂ _ b.tasks (b.tasks.map (updateTaskF taskId u now))
    rw [List.forall₂_map_right_iff, List.forall₂_same]
    intro t _ hne
    simp [updateTaskF, hne]
  · show List.Forall₂ _ b.tasks (b.tasks.map _)
    rw [List.forall₂_map_right_iff, List.forall₂_same]
    intro t _ hne
    simp [hne]
  · intro tg
    show tg ∈ b.tags.filter (fun tag => tag.id != tagId) ↔ _
    simp [List.mem_filter]
  · show List.Forall₂ _ b.tasks (b.tasks.map _)
    rw [List.forall₂_map_right_iff, List.forall₂_same]
    intro t _
    exact ⟨rfl, rfl, rfl, rfl, rfl, rfl, rfl, rfl, rfl, rfl, rfl, rfl⟩

/-! ### Claim C8: id generation across entity-creating operations -/

theorem decDigitChar_inj : ∀ a < 10, ∀ b < 10,
    decDigitChar a = decDigitChar b → a = b := by decide

theorem map_decDigitChar_inj : ∀ {l₁ l₂ : List Nat},
    (∀ d ∈ l₁, d < 10) → (∀ d ∈ l₂, d < 10) →
    l₁.map decDigitChar = l₂.map decDigitChar → l₁ = l₂ := by
  intro l₁
  induction l₁ with
  | nil =>
    intro l₂ _ _ h
    cases l₂ with
    | nil => rfl
    | cons b t => simp at h
  | cons a t ih =>
    intro l₂ h₁ h₂ h
    cases l₂ with
    | nil => simp at h
    | cons b t₂ =>
      simp only [List.map_cons, List.cons.injEq] at h
      have ha : a = b :=
        decDigitChar_inj a (h₁ a (by simp)) b (h₂ b (by simp)) h.1
      have ht : t = t₂ :=
        ih (fun d hd => h₁ d (by simp [hd])) (fun d hd => h₂ d (by simp [hd])) h.2
      rw [ha, ht]

theorem natToDec_injective {m n : Nat} (h : natToDec m = natToDec n) : m = n := by
  refine natToBase_injective 10 (by omega) ?_
  exact map_decDigitChar_inj
    (fun d hd => toDigitsRev_lt 10 (by omega) _ _ d (List.mem_reverse.mp hd))
    (fun d hd => toDigitsRev_lt 10 (by omega) _ _ d (List.mem_reverse.mp hd)) h

theorem genId_inj_same (pre : String) {n m : Nat} (h : genId pre n = genId pre m) :
    n = m := by
  have hd := congrArg String.data h
  simp only [genId, String.data_append] at hd
  have hlist : (String.mk (natToDec n)).data = (String.mk (natToDec m)).data :=
    List.append_cancel_left hd
  exact natToDec_injective hlist

theorem genId_col_task_ne (n m : Nat) : genId "col-" n ≠ genId "task-" m := by
  intro h
  have h0 : (genId "col-" n).data[0]? = (genId "task-" m).data[0]? := by rw [h]
  have e1 : (genId "col-" n).data[0]? = some 'c' := rfl
  have e2 : (genId "task-" m).data[0]? = some 't' := rfl
  rw [e1, e2] at h0
  simp at h0

theorem genId_col_tag_ne (n m : Nat) : genId "col-" n ≠ genId "tag-" m := by
  intro h
  have h0 : (genId "col-" n).data[0]? = (genId "tag-" m).data[0]? := by rw [h]
  have e1 : (genId "col-" n).data[0]? = some 'c' := rfl
  have e2 : (genId "tag-" m).data[0]? = some 't' := rfl
  rw [e1, e2] at h0
  simp at h0

theorem genId_task_tag_ne (n m : Nat) : genId "task-" n ≠ genId "tag-" m := by
  intro h
  have h0 : (genId "task-" n).data[2]? = (genId "tag-" m).data[2]? := by rw [h]
  have e1 : (genId "task-" n).data[2]? = some 's' := rfl
  have e2 : (genId "tag-" m).data[2]? = some 'g' := rfl
  rw [e1, e2] at h0
  simp at h0

/-- An entity-creating board-store operation. -/
inductive CreateOp
  | col (title : String) (now : Nat)
  | task (columnId title : String) (now : Nat)
  | tag (name color : String) (now : Nat)
deriving DecidableEq, Repr

def CreateOp.now : CreateOp → Nat
  | .col _ n => n
  | .task _ _ n => n
  | .tag _ _ n => n

/-- The entity kind created by the operation (column, task, tag). -/
def CreateOp.kind : CreateOp → Nat
  | .col _ _ => 0
  | .task _ _ _ => 1
  | .tag _ _ _ => 2

/-- The id the operation generates, per the `` `col-${Date.now()}` `` /
`` `task-${Date.now()}` `` / `` `tag-${Date.now()}` `` templates. -/
def CreateOp.newId : CreateOp → String
  | .col _ n => genId "col-" n
  | .task _ _ n => genId "task-" n
  | .tag _ _ n => genId "tag-" n

def runCreate (b : BoardState) : CreateOp → BoardState
  | .col title now => addColumn b title now
  | .task columnId title now => addTask b columnId title now
  | .tag name color now => addTag b name color now

theorem newId_ne (o o' : CreateOp) (h : o.kind = o'.kind → o.now ≠ o'.now) :
    o.newId ≠ o'.newId := by
  cases o with
  | col t n =>
    cases o' with
    | col t' n' =>
      intro heq
      exact h rfl (genId_inj_same _ heq)
    | task _ _ n' => exact genId_col_task_ne n n'
    | tag _ _ n' => exact genId_col_tag_ne n n'
  | task c t n =>
    cases o' with
    | col _ n' => exact (genId_col_task_ne n' n).symm
    | task _ _ n' =>
      intro heq
      exact h rfl (genId_inj_same _ heq)
    | tag _ _ n' => exact genId_task_tag_ne n n'
  | tag a b n =>
    cases o' with
    | col _ n' => exact (genId_col_tag_ne n' n).symm
    | task _ _ n' => exact (genId_task_tag_ne n' n).symm
    | tag _ _ n' =>
      intro heq
      exact h rfl (genId_inj_same _ heq)

/-- Claim C8 (amended): every entity-creating operation appends an entity
carrying the freshly generated id for its `Date.now()` timestamp, and the
ids generated by a sequence of creations are pairwise distinct provided
operations of the same entity kind occur at pairwise distinct timestamps
(ids of different kinds never collide thanks to their prefixes).  Two
same-kind creations in the same millisecond receive the same id — see the
counterexample. -/
theorem claim8_unique_ids :
    ((∀ (b : BoardState) (title : String) (now : Nat),
        (addColumn b title now).columns.map Column.id =
          b.columns.map Column.id ++ [genId "col-" now]) ∧
     (∀ (b : BoardState) (columnId title : String) (now : Nat),
        (addTask b columnId title now).tasks.map Task.id =
          b.tasks.map Task.id ++ [genId "task-" now]) ∧
     (∀ (b : BoardState) (name color : String) (now : Nat),
        (addTag b name color now).tags.map Tag.id =
          b.tags.map Tag.id ++ [genId "tag-" now])) ∧
    (∀ ops : List CreateOp,
      List.Pairwise (fun o o' => o.kind = o'.kind → o.now ≠ o'.now) ops →
      (ops.map CreateOp.newId).Nodup) := by
  refine ⟨⟨fun b title now => by simp [addColumn],
           fun b columnId title now => by simp [addTask],
           fun b name color now => by simp [addTag]⟩, fun ops hp => ?_⟩
  show List.Pairwise (fun a b => a ≠ b) (ops.map CreateOp.newId)
  rw [List.pairwise_map]
  exact hp.imp (fun h => newId_ne _ _ h)

/-- Two `addTask` calls landing in the same millisecond. -/
def sameMsOps : List CreateOp :=
  [.task "col-1" "first" 7, .task "col-1" "second" 7]

/-- Claim C8 counterexample: two `addTask` calls in the same millisecond
(`Date.now() = 7`) generate the same id `"task-7"`, so the ids created
across the sequence are not pairwise distinct. -/
theorem claim8_unique_ids_counterexample :
    ¬ (sameMsOps.map CreateOp.newId).Nodup ∧
    (sameMsOps.foldl runCreate defaultState).tasks.map Task.id =
      ["task-7", "task-7"] := by decide

/-- Witness for the amended C8 at a concrete operation sequence. -/
theorem claim8_unique_ids_witness :
    List.Pairwise (fun o o' : CreateOp => o.kind = o'.kind → o.now ≠ o'.now)
      [.col "A" 1, .task "col-1" "T" 1, .tag "N" "#ef4444" 2] ∧
    (([CreateOp.col "A" 1, .task "col-1" "T" 1,
       .tag "N" "#ef4444" 2]).map CreateOp.newId).Nodup :=
  ⟨by decide, claim8_unique_ids.2 _ (by decide)⟩

/-! ### Claim C4: order contiguity after `moveTask` -/

theorem renumber_length (l : List Task) : ∀ i, (renumber i l).length = l.length := by
  induction l with
  | nil => intro i; rfl
  | cons t ts ih => intro i; simp [renumber, ih]

theorem renumber_map_order (l : List Task) :
    ∀ i, (renumber i l).map Task.order = (List.range' i l.length).map Int.ofNat := by
  induction l with
  | nil => intro i; rfl
  | cons t ts ih =>
    intro i
    simp only [renumber, List.map_cons, List.length_cons, List.range'_succ, ih]
    rfl

theorem renumber_columnId {c : String} {l : List Task} (h : ∀ t ∈ l, t.columnId = c) :
    ∀ i, ∀ t' ∈ renumber i l, t'.columnId = c := by
  induction l with
  | nil => intro i t' ht'; cases ht'
  | cons t ts ih =>
    intro i t' ht'
    rcases List.mem_cons.mp ht' with rfl | ht'
    · exact h t (by simp)
    · exact ih (fun x hx => h x (by simp [hx])) (i + 1) t' ht'

theorem renumber_order_ge (l : List Task) :
    ∀ i, ∀ t' ∈ renumber i l, (i : Int) ≤ t'.order := by
  induction l with
  | nil => intro i t' ht'; cases ht'
  | cons t ts ih =>
    intro i t' ht'
    rcases List.mem_cons.mp ht' with rfl | ht'
    · simp
    · have := ih (i + 1) t' ht'
      omega

theorem renumber_sorted (l : List Task) : ∀ i, List.Sorted taskOrderLe (renumber i l) := by
  induction l with
  | nil => intro i; exact List.sorted_nil
  | cons t ts ih =>
    intro i
    show List.Sorted taskOrderLe ({ t with order := (i : Int) } :: renumber (i + 1) ts)
    refine List.Pairwise.cons ?_ (ih (i + 1))
    intro b hb
    have hge := renumber_order_ge ts (i + 1) b hb
    show (i : Int) ≤ b.order
    omega

theorem spliceInsert_mem {l : List Task} {idx : Int} {x y : Task}
    (h : y ∈ spliceInsert l idx x) : y = x ∨ y ∈ l := by
  unfold spliceInsert at h
  rcases List.mem_append.mp h with h | h
  · exact Or.inr (List.mem_of_mem_take h)
  · rcases List.mem_cons.mp h with rfl | h
    · exact Or.inl rfl
    · exact Or.inr (List.mem_of_mem_drop h)

/-- Claim C4 (amended): after every `moveTask(taskId, newColumnId, newOrder)`
call whose `taskId` exists in the board, the tasks of the resulting board
whose `columnId` equals `newColumnId`, sorted by their `order` field, have
order values forming exactly the contiguous sequence `0..n-1` matching
their positions in that sorted list.  (When the id is absent, `moveTask`
is a no-op and an arbitrary input board keeps whatever order values its
destination column already had — see the counterexample.) -/
theorem moveTask_tasks_of_find (b : BoardState) (taskId newColumnId : String)
    (newOrder : Int) (task : Task)
    (hfind : b.tasks.find? (fun t => t.id == taskId) = some task) :
    (moveTask b taskId newColumnId newOrder).tasks =
      (b.tasks.filter (fun t => t.id != taskId)).filter
        (fun t => t.columnId != newColumnId) ++
      renumber 0 (spliceInsert
        (List.insertionSort taskOrderLe
          ((b.tasks.filter (fun t => t.id != taskId)).filter
            (fun t => t.columnId == newColumnId)))
        newOrder { task with columnId := newColumnId }) := by
  unfold moveTask
  rw [hfind]

theorem claim4_move_order_contiguous (b : BoardState) (taskId newColumnId : String)
    (newOrder : Int) (h : ∃ t ∈ b.tasks, t.id = taskId) :
    (List.insertionSort taskOrderLe
        ((moveTask b taskId newColumnId newOrder).tasks.filter
          (fun t => t.columnId == newColumnId))).map Task.order =
      (List.range ((moveTask b taskId newColumnId newOrder).tasks.filter
          (fun t => t.columnId == newColumnId)).length).map Int.ofNat := by
  obtain ⟨task, hfind⟩ : ∃ task, b.tasks.find? (fun t => t.id == taskId) = some task := by
    obtain ⟨t, ht, hid⟩ := h
    exact Option.isSome_iff_exists.mp
      (List.find?_isSome.mpr ⟨t, ht, by simp [hid]⟩)
  rw [moveTask_tasks_of_find b taskId newColumnId newOrder task hfind]
  set updatedTasks := b.tasks.filter (fun t => t.id != taskId) with hupd
  set inserted := spliceInsert
      (List.insertionSort taskOrderLe (updatedTasks.filter (fun t => t.columnId == newColumnId)))
      newOrder { task with columnId := newColumnId } with hins
  have hInsCol : ∀ t' ∈ inserted, t'.columnId = newColumnId := by
    intro t' ht'
    rcases spliceInsert_mem ht' with rfl | ht'
    · rfl
    · have hmem := (List.perm_insertionSort taskOrderLe
        (updatedTasks.filter (fun t => t.columnId == newColumnId))).subset ht'
      have := List.of_mem_filter hmem
      simpa using this
  have hfilter : ((updatedTasks.filter (fun t => t.columnId != newColumnId)) ++
      renumber 0 inserted).filter (fun t => t.columnId == newColumnId) =
        renumber 0 inserted := by
    rw [List.filter_append]
    have h1 : (updatedTasks.filter (fun t => t.columnId != newColumnId)).filter
        (fun t => t.columnId == newColumnId) = [] := by
      rw [List.filter_eq_nil_iff]
      intro a ha
      have := List.of_mem_filter ha
      simp only [bne_iff_ne, ne_eq] at this
      simp [this]
    have h2 : (renumber 0 inserted).filter (fun t => t.columnId == newColumnId) =
        renumber 0 inserted := by
      rw [List.filter_eq_self]
      intro a ha
      have := renumber_columnId hInsCol 0 a ha
      simp [this]
    rw [h1, h2, List.nil_append]
  rw [hfilter]
  rw [(renumber_sorted inserted 0).insertionSort_eq]
  rw [renumber_map_order, renumber_length]
  rw [List.range_eq_range']

/-- A board whose destination column is not 0-contiguous, for the C4
counterexample and witness. -/
def gapBoard : BoardState :=
  { columns := [⟨"c1", "A", 0⟩, ⟨"c2", "B", 1⟩]
    tasks := [{ sampleTask with id := "a", columnId := "c1", order := 5 },
              { sampleTask with id := "b", columnId := "c2", order := 3 }]
    tags := [] }

/-- Claim C4 counterexample: a `moveTask` call whose task id does not
exist is a no-op, so the destination column of a board with gapped order
values keeps them: the claim as stated fails for such calls. -/
theorem claim4_move_order_contiguous_counterexample :
    (List.insertionSort taskOrderLe
        ((moveTask gapBoard "ghost" "c2" 0).tasks.filter
          (fun t => t.columnId == "c2"))).map Task.order ≠
      (List.range ((moveTask gapBoard "ghost" "c2" 0).tasks.filter
          (fun t => t.columnId == "c2")).length).map Int.ofNat := by decide

/-- Witness for the amended C4: moving an existing task into `"c2"`. -/
theorem claim4_move_order_contiguous_witness :
    (∃ t ∈ gapBoard.tasks, t.id = "a") ∧
    (List.insertionSort taskOrderLe
        ((moveTask gapBoard "a" "c2" 0).tasks.filter
          (fun t => t.columnId == "c2"))).map Task.order =
      (List.range ((moveTask gapBoard "a" "c2" 0).tasks.filter
          (fun t => t.columnId == "c2")).length).map Int.ofNat :=
  ⟨by decide, claim4_move_order_contiguous gapBoard "a" "c2" 0 (by decide)⟩

/-! ### Fuzzy search engine, from `src/utils/fuzzySearch.ts`

Strings are handled as `List Char`.  `toLowerCase`, the `\w` word class
and the `\s` whitespace class are modelled on their ASCII behaviour
(every string any claim exercises is ASCII). -/

def jsToLower (s : List Char) : List Char := s.map Char.toLower

/-- The `\w` class `[A-Za-z0-9_]`. -/
def isWordChar (c : Char) : Bool := c.isAlphanum || c == '_'

/-- The `\s` class (ASCII whitespace). -/
def isSpaceChar (c : Char) : Bool := c == ' ' || c == '\t' || c == '\n' || c == '\r'

/-- `String.prototype.includes`: `needle` occurs contiguously in the list. -/
def jsIncludes (needle : List Char) : List Char → Bool
  | [] => needle.isEmpty
  | c :: rest => needle.isPrefixOf (c :: rest) || jsIncludes needle rest

/-- `split(/\s+/)` followed by dropping empty entries (as the source's
`filter(token => token.length > 0)` does; the word lists of
`fuzzyMatchField` only ever test nonempty properties of the words, so
dropping empties is observationally equal there too). -/
def splitWs (s : List Char) : List (List Char) :=
  (s.splitOnP isSpaceChar).filter (fun w => !w.isEmpty)

/-- `tokenize` from `fuzzySearch.ts`: lowercase, replace every character
that is neither a word character nor whitespace by a space, split on
whitespace, drop empty tokens. -/
def tokenize (s : List Char) : List (List Char) :=
  splitWs ((jsToLower s).map (fun c => if isWordChar c || isSpaceChar c then c else ' '))

/-- `levenshteinDistance` from `fuzzySearch.ts`, which fills the standard
dynamic-programming table; modelled by the recurrence the table computes.
The `fuel` argument (any value `≥ |s| + |t|` suffices, and every call site
passes exactly that) only bounds the recursion depth: each recursive call
strictly decreases the combined length, so the `fuel = 0` branch is
unreachable in use. -/
def levFuel : Nat → List Char → List Char → Nat
  | _, [], t => t.length
  | _, s, [] => s.length
  | 0, _, _ => 0
  | fuel + 1, a :: s, b :: t =>
    if a = b then levFuel fuel s t
    else 1 + min (levFuel fuel s (b :: t)) (min (levFuel fuel (a :: s) t) (levFuel fuel s t))

def levenshtein (s t : List Char) : Nat := levFuel (s.length + t.length) s t

/-- `stringSimilarity` returns `(longer.length - distance) / longer.length`
(`1.0` when both strings are empty).  The two uses of the similarity are
modelled in exact rational arithmetic, written over integers:
`similarity > 0.7` is `10 * (L - d) > 7 * L`.  (IEEE float rounding in the
source can only disagree with the exact value when `similarity` or
`15 * similarity` is within a few ulps of the decision point, which no
claim exercises.) -/
def simGt07 (a b : List Char) : Bool :=
  let longer := if b.length < a.length then a else b
  let shorter := if b.length < a.length then b else a
  if longer.length = 0 then true
  else 7 * longer.length < 10 * (longer.length - levenshtein longer shorter)

/-- `Math.floor(similarity * 15)` in exact arithmetic:
`(15 * (L - d)) / L` with truncating natural division (`15` when both
strings are empty, where the source has `similarity = 1.0`). -/
def simFloor15 (a b : List Char) : Nat :=
  let longer := if b.length < a.length then a else b
  let shorter := if b.length < a.length then b else a
  if longer.length = 0 then 15
  else (15 * (longer.length - levenshtein longer shorter)) / longer.length

/-- `findMatchIndices` from `fuzzySearch.ts`: the `indexOf` loop advances
one position after each hit, so it collects every (possibly overlapping)
occurrence position of the lowercased query in the lowercased text, each
paired with its end index. -/
def findMatchIndices (text q : List Char) : List (Nat × Nat) :=
  ((List.range text.length).filter
    (fun p => (jsToLower q).isPrefixOf ((jsToLower text).drop p))).map
    (fun p => (p, p + q.length))

/-- The comparator `(a, b) => a[0] - b[0]` used by `mergeIndices`. -/
def idxLe (a b : Nat × Nat) : Prop := a.1 ≤ b.1

instance : DecidableRel idxLe := fun a b => inferInstanceAs (Decidable (a.1 ≤ b.1))

/-- The merging loop of `mergeIndices`: the accumulator's last range is
extended in place while ranges overlap or touch it. -/
def mergeLoop (cur : Nat × Nat) : List (Nat × Nat) → List (Nat × Nat)
  | [] => [cur]
  | r :: rest => if r.1 ≤ cur.2 then mergeLoop (cur.1, max cur.2 r.2) rest
                 else cur :: mergeLoop r rest

/-- `mergeIndices` from `fuzzySearch.ts`: stable-sort by start index
(`Array.prototype.sort`, modelled as insertion sort), then merge
overlapping or adjacent ranges. -/
def mergeIndices (l : List (Nat × Nat)) : List (Nat × Nat) :=
  match List.insertionSort idxLe l with
  | [] => []
  | x :: rest => mergeLoop x rest

/-- The score contribution of one (value token, query token) pair in
`fuzzyMatchField`'s token loop. -/
def tokenPairScore (vt qt : List Char) : Nat :=
  if vt = qt then 30
  else if qt.isPrefixOf vt then 20
  else if jsIncludes qt vt then 15
  else if simGt07 vt qt then simFloor15 vt qt
  else 0

/-- The highlight ranges contributed by one (value token, query token)
pair: the three non-fuzzy cases each push `findMatchIndices(fieldValue,
queryToken)`. -/
def tokenPairIndices (fieldValue vt qt : List Char) : List (Nat × Nat) :=
  if vt = qt then findMatchIndices fieldValue qt
  else if qt.isPrefixOf vt then findMatchIndices fieldValue qt
  else if jsIncludes qt vt then findMatchIndices fieldValue qt
  else []

/-- `fuzzyMatchField` from `fuzzySearch.ts`: returns the field's raw score
and its merged highlight ranges.  The guard
`!fieldValue || fieldValue.trim().length === 0` is "all characters are
whitespace" (including the empty string). -/
def fuzzyMatchField (fieldValue : List Char) (queryTokens : List (List Char))
    (originalQuery : List Char) : Nat × List (Nat × Nat) :=
  if fieldValue.all isSpaceChar then (0, [])
  else
    let lowerValue := jsToLower fieldValue
    let lowerQuery := jsToLower originalQuery
    if lowerValue = lowerQuery then (100, [(0, fieldValue.length)])
    else
      let cScore := if jsIncludes lowerQuery lowerValue then 80 else 0
      let cIdx := if jsIncludes lowerQuery lowerValue then
          findMatchIndices fieldValue originalQuery else []
      let sScore := if lowerQuery.isPrefixOf lowerValue then 60 else 0
      let words := splitWs lowerValue
      let wScore := if words.any (fun w => lowerQuery.isPrefixOf w) then 40 else 0
      let valueTokens := tokenize fieldValue
      let qts := queryTokens.filter (fun qt => 2 ≤ qt.length)
      let tScore := qts.foldl (fun acc qt =>
          acc + valueTokens.foldl (fun a vt => a + tokenPairScore vt qt) 0) 0
      let tIdx := qts.foldl (fun acc qt =>
          acc ++ valueTokens.foldl (fun a vt => a ++ tokenPairIndices fieldValue vt qt) []) []
      let acrScore := if queryTokens.length = 1 ∧ (queryTokens.headD []).length ≤ 5 ∧
          jsIncludes (queryTokens.headD []) (words.filterMap List.head?) then 25 else 0
      (cScore + sScore + wScore + tScore + acrScore, mergeIndices (cIdx ++ tIdx))

/-- A field-level match, from `interface SearchMatch`. -/
structure SearchMatch where
  field : String
  value : String
  score : Nat
  indices : List (Nat × Nat)
deriving DecidableEq, Repr

/-- `searchTask` from `fuzzySearch.ts`: all searchable fields of one task,
each weighted by `FIELD_WEIGHTS` (title 10, description 7, tag 8,
subtask 6, note 5, attachment 4 — halved to 2 for link URLs, status 3,
priority 3). -/
def searchTask (task : Task) (query : String) (tags : List Tag) : List SearchMatch :=
  let queryTokens := tokenize query.data
  if queryTokens.isEmpty then []
  else
    let titleM := fuzzyMatchField task.title.data queryTokens query.data
    let descM := fuzzyMatchField (task.description.getD "").data queryTokens query.data
    let statusM := fuzzyMatchField (statusStr task.status).data queryTokens query.data
    let prioM := fuzzyMatchField (priorityStr task.priority).data queryTokens query.data
    (if 0 < titleM.1 then [⟨"title", task.title, titleM.1 * 10, titleM.2⟩] else []) ++
    (if 0 < descM.1 then
      [⟨"description", task.description.getD "", descM.1 * 7, descM.2⟩] else []) ++
    (if 0 < statusM.1 then
      [⟨"status", statusStr task.status, statusM.1 * 3, statusM.2⟩] else []) ++
    (if 0 < prioM.1 then
      [⟨"priority", priorityStr task.priority, prioM.1 * 3, prioM.2⟩] else []) ++
    (task.tags.flatMap (fun tagId =>
      match tags.find? (fun tg => tg.id == tagId) with
      | none => []
      | some tg =>
        let m := fuzzyMatchField tg.name.data queryTokens query.data
        if 0 < m.1 then [⟨"tag", tg.name, m.1 * 8, m.2⟩] else [])) ++
    (task.subtasks.flatMap (fun st =>
      let m := fuzzyMatchField st.title.data queryTokens query.data
      if 0 < m.1 then [⟨"subtask", st.title, m.1 * 6, m.2⟩] else [])) ++
    (task.notes.flatMap (fun note =>
      let m := fuzzyMatchField note.content.data queryTokens query.data
      if 0 < m.1 then [⟨"note", note.content, m.1 * 5, m.2⟩] else [])) ++
    (task.attachments.flatMap (fun att =>
      let mName := fuzzyMatchField att.name.data queryTokens query.data
      (if 0 < mName.1 then [⟨"attachment", att.name, mName.1 * 4, mName.2⟩] else []) ++
      (if att.type = AttachmentType.link then
        (let mUrl := fuzzyMatchField att.url.data queryTokens query.data
         if 0 < mUrl.1 then [⟨"attachment", att.url, mUrl.1 * 2, mUrl.2⟩] else [])
       else [])))

/-- A per-task result, from `interface TaskSearchResult` (`matches'`
models the source's `matches` field, whose name Lean reserves). -/
structure TaskSearchResult where
  taskId : String
  columnId : String
  task : Task
  matches' : List SearchMatch
  totalScore : Nat
deriving DecidableEq, Repr

/-- The descending comparator `(a, b) => b.totalScore - a.totalScore`. -/
def scoreGe (a b : TaskSearchResult) : Prop := b.totalScore ≤ a.totalScore

instance : DecidableRel scoreGe := fun a b =>
  inferInstanceAs (Decidable (b.totalScore ≤ a.totalScore))

/-- A column together with its tasks, the shape `fuzzySearchTasks`
receives from the caller. -/
structure SearchColumn where
  id : String
  tasks : List Task
deriving DecidableEq, Repr

/-- The result-collection loop of `fuzzySearchTasks`: every task with at
least one field match contributes an entry whose `totalScore` is the
`reduce` sum of its weighted match scores, in encounter order. -/
def searchResults (columns : List SearchColumn) (query : String) (tags : List Tag) :
    List TaskSearchResult :=
  columns.flatMap (fun col =>
    col.tasks.filterMap (fun task =>
      let ms := searchTask task query tags
      if ms.isEmpty then none
      else some ⟨task.id, col.id, task, ms, (ms.map SearchMatch.score).sum⟩))

/-- `fuzzySearchTasks` from `fuzzySearch.ts`: empty for blank queries;
otherwise the collected results stable-sorted descending by total score
(`Array.prototype.sort`, modelled as insertion sort). -/
def fuzzySearchTasks (columns : List SearchColumn) (query : String) (tags : List Tag) :
    List TaskSearchResult :=
  if query.data.all isSpaceChar then []
  else List.insertionSort scoreGe (searchResults columns query tags)

/-- One highlight segment, from the return type of `highlightMatches`. -/
structure Segment where
  text : List Char
  highlight : Bool
deriving DecidableEq, Repr

/-- `String.prototype.slice(a, b)` (for nonnegative arguments). -/
def sliceCh (text : List Char) (a b : Nat) : List Char := (text.take b).drop a

/-- The loop of `highlightMatches`, threading `lastEnd`; the trailing
unhighlighted remainder is emitted when the loop ends. -/
def highlightLoop (text : List Char) : Nat → List (Nat × Nat) → List Segment
  | lastEnd, [] => if lastEnd < text.length then [⟨text.drop lastEnd, false⟩] else []
  | lastEnd, (s, e) :: rest =>
    (if lastEnd < s then [⟨sliceCh text lastEnd s, false⟩] else []) ++
    ⟨sliceCh text s e, true⟩ :: highlightLoop text e rest

/-- `highlightMatches` from `fuzzySearch.ts`. -/
def highlightMatches (text : List Char) (indices : List (Nat × Nat)) : List Segment :=
  if indices.isEmpty then [⟨text, false⟩] else highlightLoop text 0 indices

/-! ### Claim C7: highlight coverage -/

/-- Well-formed range lists: each range starts no earlier than `n`, has
`start ≤ end`, and ranges are sorted and pairwise non-overlapping — the
shape `mergeIndices` produces. -/
def ChainedFrom : Nat → List (Nat × Nat) → Prop
  | _, [] => True
  | n, (s, e) :: rest => n ≤ s ∧ s ≤ e ∧ ChainedFrom e rest

def decChainedFrom : ∀ (n : Nat) (l : List (Nat × Nat)), Decidable (ChainedFrom n l)
  | _, [] => isTrue trivial
  | n, (s, e) :: rest =>
    haveI : Decidable (ChainedFrom e rest) := decChainedFrom e rest
    inferInstanceAs (Decidable (n ≤ s ∧ s ≤ e ∧ ChainedFrom e rest))

instance (n : Nat) (l : List (Nat × Nat)) : Decidable (ChainedFrom n l) :=
  decChainedFrom n l

theorem drop_eq_slice_append (l : List Char) {a b : Nat} (hab : a ≤ b) :
    l.drop a = sliceCh l a b ++ l.drop b := by
  unfold sliceCh
  have h1 : (l.take b).drop a = (l.drop a).take (b - a) := by rw [List.drop_take]
  have h2 : l.drop b = (l.drop a).drop (b - a) := by
    rw [List.drop_drop]
    congr 1
    omega
  rw [h1, h2, List.take_append_drop]

theorem highlightLoop_join (text : List Char) :
    ∀ (l : List (Nat × Nat)) (n : Nat), ChainedFrom n l →
      ((highlightLoop text n l).map Segment.text).flatten = text.drop n := by
  intro l
  induction l with
  | nil =>
    intro n _
    by_cases h : n < text.length
    · simp [highlightLoop, h]
    · have hle : text.length ≤ n := by omega
      simp [highlightLoop, h, List.drop_eq_nil_of_le hle]
  | cons r rest ih =>
    obtain ⟨s, e⟩ := r
    intro n hc
    obtain ⟨hns, hse, hrest⟩ := hc
    show ((((if n < s then [Segment.mk (sliceCh text n s) false] else []) ++
        Segment.mk (sliceCh text s e) true :: highlightLoop text e rest)).map
          Segment.text).flatten = text.drop n
    rw [List.map_append, List.flatten_append, List.map_cons, List.flatten_cons, ih e hrest]
    by_cases h : n < s
    · rw [if_pos h]
      rw [drop_eq_slice_append text hns, drop_eq_slice_append text hse]
      simp
    · rw [if_neg h]
      have hn : n = s := by omega
      subst hn
      rw [drop_eq_slice_append text hse]
      simp

/-- Claim C7 (amended): for every string `text` and every range list that
is chained — each range has `start ≤ end`, ranges are sorted, pairwise
non-overlapping and start at or after the previous end, as the merged
index ranges produced by `mergeIndices` are — concatenating in order the
text components of `highlightMatches text indices` reproduces `text`
exactly.  (For unsorted or overlapping ranges the concatenation can
duplicate or drop characters — see the counterexample.) -/
theorem claim7_highlight_coverage (text : List Char) (indices : List (Nat × Nat))
    (h : ChainedFrom 0 indices) :
    ((highlightMatches text indices).map Segment.text).flatten = text := by
  unfold highlightMatches
  by_cases hi : indices.isEmpty
  · simp [hi]
  · rw [if_neg hi]
    have := highlightLoop_join text indices 0 h
    simpa using this

/-- Claim C7 counterexample: on `text = "abcd"` with the (unsorted)
ranges `[(2,3), (0,1)]`, `highlightMatches` returns segments reading
`"ab" "c" "a" "bcd"`, whose concatenation `"abcabcd"` is not `"abcd"`. -/
theorem claim7_highlight_coverage_counterexample :
    ((highlightMatches "abcd".data [(2, 3), (0, 1)]).map Segment.text).flatten ≠
      "abcd".data := by decide

/-- Witness for the amended C7 on a chained range list. -/
theorem claim7_highlight_coverage_witness :
    ChainedFrom 0 [(0, 1), (2, 4)] ∧
    ((highlightMatches "abcd".data [(0, 1), (2, 4)]).map Segment.text).flatten =
      "abcd".data :=
  ⟨by decide, claim7_highlight_coverage _ _ (by decide)⟩

/-! ### Claim C10: token-empty queries match nothing -/

/-- Claim C10: whenever tokenization of the query yields no tokens (in
particular for non-blank queries consisting only of punctuation),
`fuzzySearchTasks` returns the empty result list for every board — even
when the query literally occurs as a substring of some task field (the
witness exercises such a board). -/
theorem claim10_tokenless_query (cols : List SearchColumn) (query : String)
    (tags : List Tag) (h : tokenize query.data = []) :
    fuzzySearchTasks cols query tags = [] := by
  unfold fuzzySearchTasks
  by_cases hq : query.data.all isSpaceChar
  · simp [hq]
  · rw [if_neg hq]
    have hsearch : ∀ t : Task, searchTask t query tags = [] := by
      intro t
      unfold searchTask
      rw [h]
      rfl
    have hflat : searchResults cols query tags = [] := by
      unfold searchResults
      rw [List.flatMap_eq_nil_iff]
      intro col _
      rw [List.filterMap_eq_nil_iff]
      intro task _
      simp [hsearch task]
    rw [hflat]
    rfl

/-- A board whose task title contains the punctuation-only query
`"!!!"` as a literal substring. -/
def punctCols : List SearchColumn :=
  [⟨"c1", [{ sampleTask with title := "Fix !!! now" }]⟩]

/-- Witness for C10: `"!!!"` is non-blank, tokenizes to nothing, occurs
literally in the board, and still matches no task. -/
theorem claim10_tokenless_query_witness :
    tokenize "!!!".data = [] ∧
    ("!!!".data.all isSpaceChar) = false ∧
    jsIncludes "!!!".data "Fix !!! now".data = true ∧
    fuzzySearchTasks punctCols "!!!" [] = [] :=
  ⟨by decide, by decide, by decide, claim10_tokenless_query punctCols "!!!" [] (by decide)⟩

/-! ### Claim C5: exact-match ranking -/

instance : IsTotal TaskSearchResult scoreGe :=
  ⟨fun a b => (Nat.le_total b.totalScore a.totalScore).imp id id⟩

instance : IsTrans TaskSearchResult scoreGe :=
  ⟨fun _ _ _ hab hbc => Nat.le_trans hbc hab⟩

/-- The title match produced for a task titled `"Fix bug"` under the
query `"Fix bug"`: the exact-equality case, raw score 100, weighted by the
title weight 10. -/
def exactTitleMatch : SearchMatch := ⟨"title", "Fix bug", 1000, [(0, 7)]⟩

/-- The title match produced for a task titled `"Fix the button bug"`
under the query `"Fix bug"`: token matches `fix` (+30) and `bug` (+30),
raw score 60, weighted by the title weight 10. -/
def partialTitleMatch : SearchMatch := ⟨"title", "Fix the button bug", 600, [(0, 3), (15, 18)]⟩

theorem searchTask_exact (t : Task) (tags : List Tag)
    (htitle : t.title = "Fix bug") (hd : t.description = none) (hn : t.notes = [])
    (hs : t.subtasks = []) (ha : t.attachments = []) (hg : t.tags = []) :
    searchTask t "Fix bug" tags = [exactTitleMatch] := by
  have etitle : fuzzyMatchField "Fix bug".data (tokenize "Fix bug".data) "Fix bug".data
      = (100, [(0, 7)]) := by decide
  have edesc : fuzzyMatchField "".data (tokenize "Fix bug".data) "Fix bug".data
      = (0, []) := by decide
  have es1 : fuzzyMatchField (statusStr .notStarted).data (tokenize "Fix bug".data) "Fix bug".data
      = (0, []) := by decide
  have es2 : fuzzyMatchField (statusStr .inProgress).data (tokenize "Fix bug".data) "Fix bug".data
      = (0, []) := by decide
  have es3 : fuzzyMatchField (statusStr .paused).data (tokenize "Fix bug".data) "Fix bug".data
      = (0, []) := by decide
  have es4 : fuzzyMatchField (statusStr .done).data (tokenize "Fix bug".data) "Fix bug".data
      = (0, []) := by decide
  have ep1 : fuzzyMatchField (priorityStr .urgent).data (tokenize "Fix bug".data) "Fix bug".data
      = (0, []) := by decide
  have ep2 : fuzzyMatchField (priorityStr .high).data (tokenize "Fix bug".data) "Fix bug".data
      = (0, []) := by decide
  have ep3 : fuzzyMatchField (priorityStr .medium).data (tokenize "Fix bug".data) "Fix bug".data
      = (0, []) := by decide
  have ep4 : fuzzyMatchField (priorityStr .low).data (tokenize "Fix bug".data) "Fix bug".data
      = (0, []) := by decide
  have htok : (tokenize "Fix bug".data).isEmpty = false := by decide
  obtain ⟨id, title, desc, pr, st, notes, subs, atts, tg, colId, ord, ca, comp⟩ := t
  dsimp only at htitle hd hn hs ha hg
  subst htitle hd hn hs ha hg
  cases pr <;> cases st <;>
    simp [searchTask, exactTitleMatch, htok, etitle, edesc,
      es1, es2, es3, es4, ep1, ep2, ep3, ep4]

theorem searchTask_partial (t : Task) (tags : List Tag)
    (htitle : t.title = "Fix the button bug") (hd : t.description = none) (hn : t.notes = [])
    (hs : t.subtasks = []) (ha : t.attachments = []) (hg : t.tags = []) :
    searchTask t "Fix bug" tags = [partialTitleMatch] := by
  have etitle : fuzzyMatchField "Fix the button bug".data
      (tokenize "Fix bug".data) "Fix bug".data = (60, [(0, 3), (15, 18)]) := by decide
  have edesc : fuzzyMatchField "".data (tokenize "Fix bug".data) "Fix bug".data
      = (0, []) := by decide
  have es1 : fuzzyMatchField (statusStr .notStarted).data (tokenize "Fix bug".data) "Fix bug".data
      = (0, []) := by decide
  have es2 : fuzzyMatchField (statusStr .inProgress).data (tokenize "Fix bug".data) "Fix bug".data
      = (0, []) := by decide
  have es3 : fuzzyMatchField (statusStr .paused).data (tokenize "Fix bug".data) "Fix bug".data
      = (0, []) := by decide
  have es4 : fuzzyMatchField (statusStr .done).data (tokenize "Fix bug".data) "Fix bug".data
      = (0, []) := by decide
  have ep1 : fuzzyMatchField (priorityStr .urgent).data (tokenize "Fix bug".data) "Fix bug".data
      = (0, []) := by decide
  have ep2 : fuzzyMatchField (priorityStr .high).data (tokenize "Fix bug".data) "Fix bug".data
      = (0, []) := by decide
  have ep3 : fuzzyMatchField (priorityStr .medium).data (tokenize "Fix bug".data) "Fix bug".data
      = (0, []) := by decide
  have ep4 : fuzzyMatchField (priorityStr .low).data (tokenize "Fix bug".data) "Fix bug".data
      = (0, []) := by decide
  have htok : (tokenize "Fix bug".data).isEmpty = false := by decide
  obtain ⟨id, title, desc, pr, st, notes, subs, atts, tg, colId, ord, ca, comp⟩ := t
  dsimp only at htitle hd hn hs ha hg
  subst htitle hd hn hs ha hg
  cases pr <;> cases st <;>
    simp [searchTask, partialTitleMatch, htok, etitle, edesc,
      es1, es2, es3, es4, ep1, ep2, ep3, ep4]

theorem mem_searchResults (cols : List SearchColumn) (query : String) (tags : List Tag)
    {c : SearchColumn} {t : Task} (hc : c ∈ cols) (ht : t ∈ c.tasks)
    (hne : searchTask t query tags ≠ []) :
    TaskSearchResult.mk t.id c.id t (searchTask t query tags)
        (((searchTask t query tags).map SearchMatch.score).sum) ∈
      searchResults cols query tags := by
  unfold searchResults
  rw [List.mem_flatMap]
  refine ⟨c, hc, ?_⟩
  rw [List.mem_filterMap]
  refine ⟨t, ht, ?_⟩
  simp [List.isEmpty_iff, hne]

/-- Claim C5: in every board containing a task titled `"Fix bug"` and a
task titled `"Fix the button bug"` whose other fields produce no match for
the query `"Fix bug"` (no description, notes, subtasks, attachments or
tags; status and priority never match this query), `fuzzySearchTasks`
with query `"Fix bug"` ranks the `"Fix bug"` task strictly above the
`"Fix the button bug"` task: the former appears at an earlier index with
total score 1000, the latter later with total score 600. -/
theorem claim5_exact_match_ranking (cols : List SearchColumn) (tags : List Tag)
    (c1 c2 : SearchColumn) (t1 t2 : Task)
    (hc1 : c1 ∈ cols) (hc2 : c2 ∈ cols) (ht1 : t1 ∈ c1.tasks) (ht2 : t2 ∈ c2.tasks)
    (htitle1 : t1.title = "Fix bug") (htitle2 : t2.title = "Fix the button bug")
    (hd1 : t1.description = none) (hd2 : t2.description = none)
    (hn1 : t1.notes = []) (hn2 : t2.notes = [])
    (hs1 : t1.subtasks = []) (hs2 : t2.subtasks = [])
    (ha1 : t1.attachments = []) (ha2 : t2.attachments = [])
    (hg1 : t1.tags = []) (hg2 : t2.tags = []) :
    ∃ (i j : Nat) (hi : i < (fuzzySearchTasks cols "Fix bug" tags).length)
      (hj : j < (fuzzySearchTasks cols "Fix bug" tags).length),
      i < j ∧
      ((fuzzySearchTasks cols "Fix bug" tags).get ⟨i, hi⟩).taskId = t1.id ∧
      ((fuzzySearchTasks cols "Fix bug" tags).get ⟨i, hi⟩).totalScore = 1000 ∧
      ((fuzzySearchTasks cols "Fix bug" tags).get ⟨j, hj⟩).taskId = t2.id ∧
      ((fuzzySearchTasks cols "Fix bug" tags).get ⟨j, hj⟩).totalScore = 600 := by
  have hq : fuzzySearchTasks cols "Fix bug" tags =
      List.insertionSort scoreGe (searchResults cols "Fix bug" tags) := by
    have hng : ¬ (("Fix bug".data.all isSpaceChar) = true) := by decide
    unfold fuzzySearchTasks
    rw [if_neg hng]
  have hst1 := searchTask_exact t1 tags htitle1 hd1 hn1 hs1 ha1 hg1
  have hst2 := searchTask_partial t2 tags htitle2 hd2 hn2 hs2 ha2 hg2
  have hm1 := mem_searchResults cols "Fix bug" tags hc1 ht1 (by rw [hst1]; simp)
  have hm2 := mem_searchResults cols "Fix bug" tags hc2 ht2 (by rw [hst2]; simp)
  rw [hst1] at hm1
  rw [hst2] at hm2
  have hscore1 : ((List.map SearchMatch.score [exactTitleMatch]).sum) = 1000 := by decide
  have hscore2 : ((List.map SearchMatch.score [partialTitleMatch]).sum) = 600 := by decide
  have hperm := List.perm_insertionSort scoreGe (searchResults cols "Fix bug" tags)
  have hmem1 := hperm.mem_iff.mpr hm1
  have hmem2 := hperm.mem_iff.mpr hm2
  obtain ⟨⟨i, hi⟩, hgi⟩ := List.mem_iff_get.mp hmem1
  obtain ⟨⟨j, hj⟩, hgj⟩ := List.mem_iff_get.mp hmem2
  have hsorted := List.sorted_insertionSort scoreGe (searchResults cols "Fix bug" tags)
  have hpw := List.pairwise_iff_get.mp hsorted
  have hij : i < j := by
    rcases Nat.lt_trichotomy i j with h | h | h
    · exact h
    · exfalso
      subst h
      rw [hgi] at hgj
      have hts := congrArg TaskSearchResult.totalScore hgj
      dsimp only at hts
      have hcontra : (1000 : Nat) = 600 := by
        rw [← hscore1, ← hscore2]
        exact hts
      exact absurd hcontra (by decide)
    · exfalso
      have hge := hpw ⟨j, hj⟩ ⟨i, hi⟩ h
      rw [hgi, hgj] at hge
      have hcontra : (1000 : Nat) ≤ 600 := by
        rw [← hscore1, ← hscore2]
        exact hge
      exact absurd hcontra (by decide)
  rw [hq]
  refine ⟨i, j, hi, hj, hij, ?_, ?_, ?_, ?_⟩
  · rw [hgi]
  · rw [hgi]
    exact hscore1
  · rw [hgj]
  · rw [hgj]
    exact hscore2

/-- The exactly-titled task of the C5 witness board. -/
def exactTask : Task := { sampleTask with id := "t-exact", title := "Fix bug" }

/-- The partially-titled task of the C5 witness board. -/
def partialTask : Task := { sampleTask with id := "t-partial", title := "Fix the button bug" }

/-- The two-task board of the claim, for the C5 witness. -/
def rankCol : SearchColumn := ⟨"c1", [exactTask, partialTask]⟩

/-- Witness for C5: on a concrete two-task board, the `"Fix bug"` task is
ranked strictly above the `"Fix the button bug"` task. -/
theorem claim5_exact_match_ranking_witness :
    ∃ (i j : Nat) (hi : i < (fuzzySearchTasks [rankCol] "Fix bug" []).length)
      (hj : j < (fuzzySearchTasks [rankCol] "Fix bug" []).length),
      i < j ∧
      ((fuzzySearchTasks [rankCol] "Fix bug" []).get ⟨i, hi⟩).taskId = "t-exact" ∧
      ((fuzzySearchTasks [rankCol] "Fix bug" []).get ⟨i, hi⟩).totalScore = 1000 ∧
      ((fuzzySearchTasks [rankCol] "Fix bug" []).get ⟨j, hj⟩).taskId = "t-partial" ∧
      ((fuzzySearchTasks [rankCol] "Fix bug" []).get ⟨j, hj⟩).totalScore = 600 :=
  claim5_exact_match_ranking [rankCol] [] rankCol rankCol exactTask partialTask
    (by decide) (by decide) (by decide) (by decide)
    rfl rfl rfl rfl rfl rfl rfl rfl rfl rfl rfl rfl

end Taskboard
